import Mathlib

/-!
Verification of the Pingo networking and data core against its
specification.  The Rust sources under src-tauri/src are embedded
shallowly: pure functions become Lean functions, the stateful managers
become explicit state passing, machine integers become Nat with explicit
bounds where overflow or floating point matters, and fallible operations
return Except.  External crates (x25519_dalek, sha2, aes_gcm) are not
part of this repository; they enter the embedding as an explicit
parameter structure whose documented contracts appear as hypotheses of
the theorems, discharged concretely in the witnesses.
-/

namespace Pingo

/-! ## Base64 (standard alphabet with canonical padding)

Embeds the behaviour of the base64 crate's STANDARD engine as used by
crypto.rs and file_transfer.rs: encode with padding, strict decode that
rejects foreign symbols, non-canonical padding and nonzero trailing
bits.  Error strings stand in for the crate's DecodeError displays; the
claims only ever depend on them being distinct from the messages built
by the repository itself. -/

/-- The value-to-symbol table of the standard base64 alphabet. -/
def b64EncChar (v : Nat) : Char :=
  if v < 26 then Char.ofNat (65 + v)
  else if v < 52 then Char.ofNat (97 + (v - 26))
  else if v < 62 then Char.ofNat (48 + (v - 52))
  else if v = 62 then '+'
  else '/'

/-- The symbol-to-value table of the standard base64 alphabet. -/
def b64DecChar (c : Char) : Option Nat :=
  let n := c.toNat
  if 65 ≤ n ∧ n ≤ 90 then some (n - 65)
  else if 97 ≤ n ∧ n ≤ 122 then some (26 + (n - 97))
  else if 48 ≤ n ∧ n ≤ 57 then some (52 + (n - 48))
  else if n = 43 then some 62
  else if n = 47 then some 63
  else none

/-- Base64-encode a byte list (entries are taken mod 256, matching the
u8 values the Rust encoder consumes), producing the padded symbol
stream. -/
def b64EncodeList : List Nat → List Char
  | [] => []
  | [a] =>
      let a' := a % 256
      [b64EncChar (a' / 4), b64EncChar ((a' % 4) * 16), '=', '=']
  | [a, b] =>
      let a' := a % 256
      let b' := b % 256
      [b64EncChar (a' / 4), b64EncChar ((a' % 4) * 16 + b' / 16),
       b64EncChar ((b' % 16) * 4), '=']
  | a :: b :: c :: rest =>
      let a' := a % 256
      let b' := b % 256
      let c' := c % 256
      b64EncChar (a' / 4) :: b64EncChar ((a' % 4) * 16 + b' / 16) ::
      b64EncChar ((b' % 16) * 4 + c' / 64) :: b64EncChar (c' % 64) ::
      b64EncodeList rest

/-- Strict base64 decode on the symbol stream: blocks of four symbols,
padding only in the last block, trailing bits must be zero. -/
def b64DecodeList : List Char → Except String (List Nat)
  | [] => Except.ok []
  | c0 :: c1 :: c2 :: c3 :: rest =>
    match b64DecChar c0, b64DecChar c1 with
    | some v0, some v1 =>
      if c2 = '=' then
        if c3 = '=' && rest.isEmpty then
          if v1 % 16 = 0 then Except.ok [v0 * 4 + v1 / 16]
          else Except.error "Invalid trailing bits"
        else Except.error "Invalid padding"
      else
        match b64DecChar c2 with
        | some v2 =>
          if c3 = '=' then
            if rest.isEmpty then
              if v2 % 4 = 0 then
                Except.ok [v0 * 4 + v1 / 16, (v1 % 16) * 16 + v2 / 4]
              else Except.error "Invalid trailing bits"
            else Except.error "Invalid padding"
          else
            match b64DecChar c3 with
            | some v3 =>
              match b64DecodeList rest with
              | Except.ok bs =>
                  Except.ok ((v0 * 4 + v1 / 16) :: ((v1 % 16) * 16 + v2 / 4) ::
                             ((v2 % 4) * 64 + v3) :: bs)
              | Except.error e => Except.error e
            | none => Except.error "Invalid symbol"
        | none => Except.error "Invalid symbol"
    | _, _ => Except.error "Invalid symbol"
  | _ => Except.error "Invalid input length"

/-- Base64-encode bytes to a string, as the STANDARD engine does. -/
def b64Encode (l : List Nat) : String := String.mk (b64EncodeList l)

/-- Strict base64 decode of a string. -/
def b64Decode (s : String) : Except String (List Nat) := b64DecodeList s.data

theorem b64DecChar_encChar : ∀ v < 64, b64DecChar (b64EncChar v) = some v := by
  decide

theorem b64EncChar_ne_pad : ∀ v < 64, b64EncChar v ≠ '=' := by
  decide

/-- Decoding inverts encoding on byte lists. -/
theorem b64_roundtrip : ∀ l : List Nat, (∀ x ∈ l, x < 256) →
    b64DecodeList (b64EncodeList l) = Except.ok l
  | [], _ => rfl
  | [a], h => by
      have ha : a % 256 = a := Nat.mod_eq_of_lt (h a (by simp))
      have h0 : b64DecChar (b64EncChar (a % 256 / 4)) = some (a % 256 / 4) :=
        b64DecChar_encChar _ (by omega)
      have h1 : b64DecChar (b64EncChar (a % 256 % 4 * 16)) = some (a % 256 % 4 * 16) :=
        b64DecChar_encChar _ (by omega)
      simp only [b64EncodeList]
      simp [b64DecodeList, h0, h1, Nat.mul_mod_left]
      omega
  | [a, b], h => by
      have ha : a % 256 = a := Nat.mod_eq_of_lt (h a (by simp))
      have hb : b % 256 = b := Nat.mod_eq_of_lt (h b (by simp))
      have h0 : b64DecChar (b64EncChar (a % 256 / 4)) = some (a % 256 / 4) :=
        b64DecChar_encChar _ (by omega)
      have h1 : b64DecChar (b64EncChar (a % 256 % 4 * 16 + b % 256 / 16)) =
          some (a % 256 % 4 * 16 + b % 256 / 16) :=
        b64DecChar_encChar _ (by omega)
      have h2 : b64DecChar (b64EncChar (b % 256 % 16 * 4)) = some (b % 256 % 16 * 4) :=
        b64DecChar_encChar _ (by omega)
      have hne : b64EncChar (b % 256 % 16 * 4) ≠ '=' :=
        b64EncChar_ne_pad _ (by omega)
      simp only [b64EncodeList]
      simp [b64DecodeList, h0, h1, h2, hne, Nat.mul_mod_left]
      constructor
      · omega
      · omega
  | a :: b :: c :: rest, h => by
      have ha : a % 256 = a := Nat.mod_eq_of_lt (h a (by simp))
      have hb : b % 256 = b := Nat.mod_eq_of_lt (h b (by simp))
      have hc : c % 256 = c := Nat.mod_eq_of_lt (h c (by simp))
      have h0 : b64DecChar (b64EncChar (a % 256 / 4)) = some (a % 256 / 4) :=
        b64DecChar_encChar _ (by omega)
      have h1 : b64DecChar (b64EncChar (a % 256 % 4 * 16 + b % 256 / 16)) =
          some (a % 256 % 4 * 16 + b % 256 / 16) :=
        b64DecChar_encChar _ (by omega)
      have h2 : b64DecChar (b64EncChar (b % 256 % 16 * 4 + c % 256 / 64)) =
          some (b % 256 % 16 * 4 + c % 256 / 64) :=
        b64DecChar_encChar _ (by omega)
      have h3 : b64DecChar (b64EncChar (c % 256 % 64)) = some (c % 256 % 64) :=
        b64DecChar_encChar _ (by omega)
      have hne2 : b64EncChar (b % 256 % 16 * 4 + c % 256 / 64) ≠ '=' :=
        b64EncChar_ne_pad _ (by omega)
      have hne3 : b64EncChar (c % 256 % 64) ≠ '=' :=
        b64EncChar_ne_pad _ (by omega)
      have ih := b64_roundtrip rest (fun x hx => h x (by simp [hx]))
      simp only [b64EncodeList]
      simp [b64DecodeList, h0, h1, h2, h3, hne2, hne3, ih]
      refine ⟨by omega, by omega, by omega⟩

/-- Decoding a string built from an encoded byte list. -/
theorem b64Decode_encode (l : List Nat) (h : ∀ x ∈ l, x < 256) :
    b64Decode (b64Encode l) = Except.ok l := by
  simpa [b64Decode, b64Encode] using b64_roundtrip l h

/-! ## Signaling (signaling.rs)

The tagged-union message catalog, the peer table and the address
check performed by the listener thread of SignalingServer::start.
A serde_json::Value payload is embedded as its serialized text. -/

/-- Stand-in for an arbitrary serde_json::Value payload. -/
abbrev JsonValue := String

/-- The SignalingMessage catalog of signaling.rs, with the exact field
lists of the Rust enum (from is spelled from_). -/
inductive SignalingMessage where
  | Offer (from_ to_ sdp session_id : String)
  | Answer (from_ to_ sdp session_id : String)
  | IceCandidate (from_ to_ candidate : String) (sdp_mid : Option String)
      (sdp_mline_index : Option Nat) (session_id : String)
  | ConnectionRequest (from_ to_ session_id : String)
  | ConnectionAccepted (from_ to_ session_id : String)
  | ConnectionRejected (from_ to_ session_id reason : String)
  | ScreenShareInvite (from_ to_ session_id : String)
  | ScreenShareResponse (from_ to_ session_id : String) (accepted : Bool)
  | ScreenShareEnded (from_ to_ session_id : String)
  | FileTransferRequest (from_ to_ file_name : String) (file_size : Nat)
      (file_type transfer_id : String)
  | FileTransferResponse (from_ to_ transfer_id : String) (accepted : Bool)
  | Ping (from_ : String) (timestamp : Nat)
  | Pong (from_ : String) (timestamp : Nat)
  | ChatMessage (from_ to_ id content message_type sender_name timestamp : String)
  | DeliveryAck (from_ to_ message_id : String)
  | ProfileUpdate (from_ to_ username : String) (avatar_url avatar_file_id : Option String)
      (avatar_file_port : Option Nat) (bio designation : Option String)
  | GroupCreated (from_ to_ id name : String) (member_ids member_names : List String)
      (created_at : String)
  | GroupChatMessage (from_ to_ group_id id content message_type sender_name timestamp : String)
  | MeetingChatMessage (from_ to_ session_id id content sender_name timestamp : String)
  | GroupMemberAdded (from_ to_ group_id user_id username : String)
  | GroupMemberRemoved (from_ to_ group_id user_id : String)
  | MeetingInvite (from_ to_ meeting_id host_name : String)
  | MeetingInviteResponse (from_ to_ meeting_id : String) (accepted : Bool)
      (username : Option String)
  | MeetingOffer (from_ to_ meeting_id sdp : String)
  | MeetingAnswer (from_ to_ meeting_id sdp : String)
  | MeetingIceCandidate (from_ to_ meeting_id candidate : String)
      (sdp_mid : Option String) (sdp_mline_index : Option Nat)
  | MeetingChat (from_ to_ meeting_id : String) (chat : JsonValue)
  | MeetingLeave (from_ to_ meeting_id : String)
  | MeetingEnded (from_ to_ meeting_id : String)
  | MeetingScreenShare (from_ to_ meeting_id : String) (sharing : Bool)
  | MeetingScreenShareInvite (from_ to_ meeting_id host_name : String)
  | MeetingRejoinRequest (from_ to_ meeting_id username : String)
  | MeetingParticipantList (from_ to_ meeting_id : String) (participants : List String)
deriving DecidableEq

/-- The from device id, present on every variant of the enum. -/
def msgFrom : SignalingMessage → String
  | .Offer f _ _ _ => f
  | .Answer f _ _ _ => f
  | .IceCandidate f _ _ _ _ _ => f
  | .ConnectionRequest f _ _ => f
  | .ConnectionAccepted f _ _ => f
  | .ConnectionRejected f _ _ _ => f
  | .ScreenShareInvite f _ _ => f
  | .ScreenShareResponse f _ _ _ => f
  | .ScreenShareEnded f _ _ => f
  | .FileTransferRequest f _ _ _ _ _ => f
  | .FileTransferResponse f _ _ _ => f
  | .Ping f _ => f
  | .Pong f _ => f
  | .ChatMessage f _ _ _ _ _ _ => f
  | .DeliveryAck f _ _ => f
  | .ProfileUpdate f _ _ _ _ _ _ _ => f
  | .GroupCreated f _ _ _ _ _ _ => f
  | .GroupChatMessage f _ _ _ _ _ _ _ => f
  | .MeetingChatMessage f _ _ _ _ _ _ => f
  | .GroupMemberAdded f _ _ _ _ => f
  | .GroupMemberRemoved f _ _ _ => f
  | .MeetingInvite f _ _ _ => f
  | .MeetingInviteResponse f _ _ _ _ => f
  | .MeetingOffer f _ _ _ => f
  | .MeetingAnswer f _ _ _ => f
  | .MeetingIceCandidate f _ _ _ _ _ => f
  | .MeetingChat f _ _ _ => f
  | .MeetingLeave f _ _ => f
  | .MeetingEnded f _ _ => f
  | .MeetingScreenShare f _ _ _ => f
  | .MeetingScreenShareInvite f _ _ _ => f
  | .MeetingRejoinRequest f _ _ _ => f
  | .MeetingParticipantList f _ _ _ => f

/-- The to device id where the variant declares one; Ping and Pong have
no to field in the Rust enum, so they yield none. -/
def msgTo : SignalingMessage → Option String
  | .Offer _ t _ _ => some t
  | .Answer _ t _ _ => some t
  | .IceCandidate _ t _ _ _ _ => some t
  | .ConnectionRequest _ t _ => some t
  | .ConnectionAccepted _ t _ => some t
  | .ConnectionRejected _ t _ _ => some t
  | .ScreenShareInvite _ t _ => some t
  | .ScreenShareResponse _ t _ _ => some t
  | .ScreenShareEnded _ t _ => some t
  | .FileTransferRequest _ t _ _ _ _ => some t
  | .FileTransferResponse _ t _ _ => some t
  | .Ping _ _ => none
  | .Pong _ _ => none
  | .ChatMessage _ t _ _ _ _ _ => some t
  | .DeliveryAck _ t _ => some t
  | .ProfileUpdate _ t _ _ _ _ _ _ => some t
  | .GroupCreated _ t _ _ _ _ _ => some t
  | .GroupChatMessage _ t _ _ _ _ _ _ => some t
  | .MeetingChatMessage _ t _ _ _ _ _ => some t
  | .GroupMemberAdded _ t _ _ _ => some t
  | .GroupMemberRemoved _ t _ _ => some t
  | .MeetingInvite _ t _ _ => some t
  | .MeetingInviteResponse _ t _ _ _ => some t
  | .MeetingOffer _ t _ _ => some t
  | .MeetingAnswer _ t _ _ => some t
  | .MeetingIceCandidate _ t _ _ _ _ => some t
  | .MeetingChat _ t _ _ => some t
  | .MeetingLeave _ t _ => some t
  | .MeetingEnded _ t _ => some t
  | .MeetingScreenShare _ t _ _ => some t
  | .MeetingScreenShareInvite _ t _ _ => some t
  | .MeetingRejoinRequest _ t _ _ => some t
  | .MeetingParticipantList _ t _ _ => some t

/-- The peer-id extraction match at the top of the listener loop in
SignalingServer::start.  It names 26 of the variants explicitly and
sends everything else to None through its catch-all arm. -/
def extractPeerId : SignalingMessage → Option String
  | .Offer f _ _ _ => some f
  | .Answer f _ _ _ => some f
  | .IceCandidate f _ _ _ _ _ => some f
  | .ConnectionRequest f _ _ => some f
  | .Ping f _ => some f
  | .ChatMessage f _ _ _ _ _ _ => some f
  | .ProfileUpdate f _ _ _ _ _ _ _ => some f
  | .GroupChatMessage f _ _ _ _ _ _ _ => some f
  | .GroupCreated f _ _ _ _ _ _ => some f
  | .MeetingChatMessage f _ _ _ _ _ _ => some f
  | .GroupMemberAdded f _ _ _ _ => some f
  | .GroupMemberRemoved f _ _ _ => some f
  | .ScreenShareResponse f _ _ _ => some f
  | .ScreenShareEnded f _ _ => some f
  | .MeetingInvite f _ _ _ => some f
  | .MeetingInviteResponse f _ _ _ _ => some f
  | .MeetingOffer f _ _ _ => some f
  | .MeetingAnswer f _ _ _ => some f
  | .MeetingIceCandidate f _ _ _ _ _ => some f
  | .MeetingChat f _ _ _ => some f
  | .MeetingLeave f _ _ => some f
  | .MeetingEnded f _ _ => some f
  | .MeetingScreenShare f _ _ _ => some f
  | .MeetingScreenShareInvite f _ _ _ => some f
  | .MeetingRejoinRequest f _ _ _ => some f
  | .MeetingParticipantList f _ _ _ => some f
  | _ => none

/-- A UDP socket address. -/
structure SockAddr where
  ip : String
  port : Nat
deriving DecidableEq

/-- Peer connection state of signaling.rs. -/
inductive ConnectionState where
  | Disconnected
  | Connecting
  | Connected
  | Failed
deriving DecidableEq

/-- Active peer connection info of signaling.rs. -/
structure PeerConnection where
  peer_id : String
  address : SockAddr
  state : ConnectionState
  session_id : Option String
deriving DecidableEq

/-- The signaling peer table, a HashMap embedded as an association list
with at most one entry per key. -/
abbrev PeerTable := List (String × PeerConnection)

/-- HashMap::get. -/
def tableGet (t : PeerTable) (k : String) : Option PeerConnection :=
  (t.find? (fun p => p.1 = k)).map (·.2)

/-- HashMap::insert (replacing any existing entry for the key). -/
def tableInsert (t : PeerTable) (k : String) (v : PeerConnection) : PeerTable :=
  (k, v) :: t.filter (fun p => ¬ p.1 = k)

/-- One iteration of the listener loop of SignalingServer::start on a
successfully parsed message: the anti-spoof address check and the
forwarding decision.  Returns the updated peer table and (some msg) if
the message is forwarded on the event channel, none if it is dropped by
the continue. -/
def listenerStep (device_id : String) (peers : PeerTable)
    (msg : SignalingMessage) (src : SockAddr) :
    PeerTable × Option SignalingMessage :=
  match extractPeerId msg with
  | some id =>
      if id ≠ device_id then
        match tableGet peers id with
        | some existing =>
            if existing.address ≠ src then
              (peers, none)
            else
              (peers, some msg)
        | none =>
            (tableInsert peers id
              { peer_id := id, address := src,
                state := ConnectionState.Disconnected, session_id := none },
             some msg)
      else (peers, some msg)
  | none => (peers, some msg)

/-! ## Crypto (crypto.rs)

CryptoManager embedded as explicit state passing.  The primitives of
the external crates x25519_dalek, sha2 and aes_gcm are not code of this
repository: they enter as the parameter structure CryptoPrims, and the
theorems assume exactly their documented contracts (X25519 shared
secrets agree, AES-GCM opens what it seals, SHA-256 digests are 32
bytes).  Randomness (key and nonce generation) is passed in
explicitly. -/

/-- Interface of the external crypto crates used by crypto.rs.  All
buffers are byte lists.  aeadSeal never fails (the aead crate fails
only on lengths beyond 2^36 bytes); aeadOpen returns none on
authentication failure. -/
structure CryptoPrims where
  x25519Base : List Nat → List Nat
  x25519Dh : List Nat → List Nat → List Nat
  sha256 : List Nat → List Nat
  aeadSeal : List Nat → List Nat → List Nat → List Nat
  aeadOpen : List Nat → List Nat → List Nat → Option (List Nat)

/-- Key pair for this device (crypto.rs DeviceKeyPair). -/
structure DeviceKeyPair where
  public_key : List Nat
  secret_key : List Nat
deriving DecidableEq

/-- Session key for a peer, derived from ECDH (crypto.rs SessionKey). -/
structure SessionKey where
  shared_secret : List Nat
  peer_public_key : List Nat
deriving DecidableEq

/-- Encrypted message envelope (crypto.rs EncryptedEnvelope). -/
structure EncryptedEnvelope where
  nonce : String
  ciphertext : String
  sender_public_key : String
deriving DecidableEq

/-- The mutable state of a CryptoManager. -/
structure CryptoState where
  device_keypair : Option DeviceKeyPair
  session_keys : List (String × SessionKey)
deriving DecidableEq

/-- CryptoManager::new. -/
def cryptoNew : CryptoState := { device_keypair := none, session_keys := [] }

/-- Session map lookup. -/
def sessionGet (st : CryptoState) (peer_id : String) : Option SessionKey :=
  ((st.session_keys.find? (fun p => p.1 = peer_id))).map (·.2)

/-- CryptoManager::generate_keypair, with the CSPRNG output for the
secret scalar passed in.  Returns the new state and the base64 public
key. -/
def generate_keypair (P : CryptoPrims) (st : CryptoState)
    (secret_rand : List Nat) : CryptoState × String :=
  let pub := P.x25519Base secret_rand
  ({ st with device_keypair := some { public_key := pub, secret_key := secret_rand } },
   b64Encode pub)

/-- CryptoManager::establish_session: decode the peer's base64 public
key, require 32 bytes, compute the DH shared secret, hash it with
SHA-256 and store the session under the peer id. -/
def establish_session (P : CryptoPrims) (st : CryptoState)
    (peer_id : String) (peer_public_key_b64 : String) :
    Except String CryptoState :=
  match b64Decode peer_public_key_b64 with
  | Except.error e => Except.error e
  | Except.ok peer_public_bytes =>
    if peer_public_bytes.length ≠ 32 then
      Except.error "Invalid peer public key length"
    else
      match st.device_keypair with
      | none => Except.error "No keypair generated"
      | some keypair =>
        let shared_secret_dh := P.x25519Dh keypair.secret_key peer_public_bytes
        let shared_secret := P.sha256 shared_secret_dh
        Except.ok { st with
          session_keys :=
            (peer_id, { shared_secret := shared_secret,
                        peer_public_key := peer_public_bytes }) ::
            st.session_keys.filter (fun p => ¬ p.1 = peer_id) }

/-- CryptoManager::encrypt, with the 12 random nonce bytes passed in.
Mirrors the source: session lookup, cipher construction (which demands
a 32-byte key), seal, and the envelope with the echoed sender public
key (empty when no keypair exists, per unwrap_or_default). -/
def encrypt (P : CryptoPrims) (st : CryptoState) (peer_id : String)
    (nonce_bytes : List Nat) (plaintext : List Nat) :
    Except String EncryptedEnvelope :=
  match sessionGet st peer_id with
  | none => Except.error "No session established with peer"
  | some session =>
    if session.shared_secret.length ≠ 32 then Except.error "Invalid Length"
    else
      let ciphertext := P.aeadSeal session.shared_secret nonce_bytes plaintext
      let public_key :=
        match st.device_keypair with
        | some k => b64Encode k.public_key
        | none => ""
      Except.ok { nonce := b64Encode nonce_bytes,
                  ciphertext := b64Encode ciphertext,
                  sender_public_key := public_key }

/-- CryptoManager::decrypt: session lookup, base64 decode of nonce and
ciphertext, 12-byte nonce check, cipher construction, and open; an
authentication failure is collapsed to the one generic message. -/
def decrypt (P : CryptoPrims) (st : CryptoState) (peer_id : String)
    (envelope : EncryptedEnvelope) : Except String (List Nat) :=
  match sessionGet st peer_id with
  | none => Except.error "No session established with peer"
  | some session =>
    match b64Decode envelope.nonce with
    | Except.error e => Except.error e
    | Except.ok nonce_bytes =>
      if nonce_bytes.length ≠ 12 then Except.error "Invalid nonce length"
      else
        match b64Decode envelope.ciphertext with
        | Except.error e => Except.error e
        | Except.ok ciphertext =>
          if session.shared_secret.length ≠ 32 then Except.error "Invalid Length"
          else
            match P.aeadOpen session.shared_secret nonce_bytes ciphertext with
            | some plaintext => Except.ok plaintext
            | none => Except.error "Decryption failed - invalid ciphertext or key"

/-- The two-manager round trip exercised by the crypto.rs unit test
test_key_exchange_and_encryption, at the byte level: generate both
keypairs, establish both sessions from the exchanged base64 public
keys, encrypt at A for B, decrypt at B keyed by A. -/
def cryptoRoundTrip (P : CryptoPrims) (secret_a secret_b : List Nat)
    (nonce_bytes plaintext : List Nat) : Except String (List Nat) :=
  let ga := generate_keypair P cryptoNew secret_a
  let gb := generate_keypair P cryptoNew secret_b
  match establish_session P ga.1 "device_b" gb.2 with
  | Except.error e => Except.error e
  | Except.ok stA =>
    match establish_session P gb.1 "device_a" ga.2 with
    | Except.error e => Except.error e
    | Except.ok stB =>
      match encrypt P stA "device_b" nonce_bytes plaintext with
      | Except.error e => Except.error e
      | Except.ok envelope => decrypt P stB "device_a" envelope

/-! ## Store (db.rs)

The messages table embedded as a list of rows in insertion order.
created_at is an ISO-8601 TEXT column; SQLite compares it with binary
collation, embedded as the lexicographic order on String.  The users
table enters only as the set of existing ids, enough to express the
foreign keys on messages. -/

/-- A row of the messages table (db.rs Message). -/
structure Message where
  id : String
  sender_id : String
  receiver_id : String
  content : String
  message_type : String
  file_path : Option String
  is_read : Bool
  is_delivered : Bool
  created_at : String
deriving DecidableEq

/-- A row of get_last_messages (db.rs LastMessageInfo). -/
structure LastMessageInfo where
  peer_id : String
  content : String
  created_at : String
  is_from_me : Bool
deriving DecidableEq

/-- Database::create_message: INSERT OR IGNORE INTO messages.  A row
whose id is already present is skipped silently; otherwise the foreign
keys on sender_id and receiver_id are enforced and the row is
appended. -/
def create_message (users : List String) (table : List Message)
    (message : Message) : Except String (List Message) :=
  if table.any (fun m => m.id = message.id) then Except.ok table
  else if message.sender_id ∈ users ∧ message.receiver_id ∈ users then
    Except.ok (table ++ [message])
  else Except.error "FOREIGN KEY constraint failed"

/-- Database::mark_message_read: UPDATE messages SET is_read=1 WHERE
id=?1.  Only the is_read column appears in the SET list. -/
def mark_message_read (table : List Message) (id : String) : List Message :=
  table.map (fun m => if m.id = id then { m with is_read := true } else m)

/-- Database::mark_messages_read_from_peer: UPDATE messages SET
is_read=1 WHERE receiver_id=?1 AND sender_id=?2 AND is_read=0. -/
def mark_messages_read_from_peer (table : List Message)
    (local_id peer_id : String) : List Message :=
  table.map (fun m =>
    if m.receiver_id = local_id ∧ m.sender_id = peer_id ∧ m.is_read = false then
      { m with is_read := true }
    else m)

/-- Database::mark_message_delivered: UPDATE messages SET is_delivered=1
WHERE id=?1. -/
def mark_message_delivered (table : List Message) (id : String) : List Message :=
  table.map (fun m => if m.id = id then { m with is_delivered := true } else m)

/-- The peer column of get_last_messages: CASE WHEN sender_id=me THEN
receiver_id ELSE sender_id END. -/
def peerOf (local_id : String) (m : Message) : String :=
  if m.sender_id = local_id then m.receiver_id else m.sender_id

/-- The WHERE clause of get_last_messages: sender_id=me OR
receiver_id=me. -/
def conversationRows (local_id : String) (table : List Message) : List Message :=
  table.filter (fun m => m.sender_id = local_id ∨ m.receiver_id = local_id)

/-- Of two rows, the one the window ORDER BY created_at DESC ranks
first (the later row; the left one on ties). -/
def laterOf (a b : Message) : Message :=
  if a.created_at < b.created_at then b else a

/-- The rn=1 row of one partition: the row with maximal created_at.
Refines the tie-breaking that SQLite leaves unspecified. -/
def pickLatest : List Message → Option Message
  | [] => none
  | m :: ms => some (ms.foldl laterOf m)

/-- Database::get_last_messages: one row per distinct peer, carrying
the partition's most recent content/created_at and the is_from_me
flag. -/
def get_last_messages (local_id : String) (table : List Message) :
    List LastMessageInfo :=
  let rows := conversationRows local_id table
  ((rows.map (peerOf local_id)).dedup).filterMap (fun p =>
    (pickLatest (rows.filter (fun m => peerOf local_id m = p))).map (fun m =>
      { peer_id := p, content := m.content, created_at := m.created_at,
        is_from_me := m.sender_id = local_id }))

/-- A direct message between me and peer p, in either direction. -/
def isBetween (me p : String) (m : Message) : Prop :=
  (m.sender_id = me ∧ m.receiver_id = p) ∨ (m.sender_id = p ∧ m.receiver_id = me)

instance (me p : String) (m : Message) : Decidable (isBetween me p m) := by
  unfold isBetween; infer_instance

/-! ## Transfers (file_transfer.rs)

FileTransferManager embedded as explicit state passing over the
transfers map and a file system mapping paths to byte lists.  SHA-256
hex digests come from the external sha2 crate and enter as a hash
parameter.  Writing at an offset beyond the end of a file zero-fills
the gap, as seek past EOF plus write does. -/

/-- File transfer metadata (file_transfer.rs FileMetadata). -/
structure FileMetadata where
  transfer_id : String
  file_name : String
  file_size : Nat
  file_type : String
  total_chunks : Nat
  checksum : String
deriving DecidableEq

/-- Individual chunk data (file_transfer.rs FileChunk); data is the
base64 payload. -/
structure FileChunk where
  transfer_id : String
  chunk_index : Nat
  data : String
  checksum : String
deriving DecidableEq

/-- Chunk acknowledgment (file_transfer.rs ChunkAck). -/
structure ChunkAck where
  transfer_id : String
  chunk_index : Nat
  success : Bool
deriving DecidableEq

/-- Transfer state (file_transfer.rs TransferState). -/
structure TransferState where
  transfer_id : String
  file_name : String
  file_size : Nat
  total_chunks : Nat
  received_chunks : List Bool
  is_sender : Bool
  is_complete : Bool
  file_path : String
  checksum : String
deriving DecidableEq

/-- The file system: path to contents. -/
abbrev FileSys := List (String × List Nat)

/-- The transfers map. -/
abbrev TransferMap := List (String × TransferState)

/-- File system lookup. -/
def fsGet (fs : FileSys) (path : String) : Option (List Nat) :=
  (fs.find? (fun p => p.1 = path)).map (·.2)

/-- File system update. -/
def fsSet (fs : FileSys) (path : String) (content : List Nat) : FileSys :=
  fs.map (fun p => if p.1 = path then (p.1, content) else p)

/-- Transfers map lookup. -/
def tmGet (tm : TransferMap) (transfer_id : String) : Option TransferState :=
  (tm.find? (fun p => p.1 = transfer_id)).map (·.2)

/-- Transfers map insert/replace. -/
def tmSet (tm : TransferMap) (transfer_id : String) (st : TransferState) : TransferMap :=
  (transfer_id, st) :: tm.filter (fun p => ¬ p.1 = transfer_id)

/-- CHUNK_SIZE of file_transfer.rs: 64 KiB. -/
def CHUNK_SIZE : Nat := 65536

/-- seek(SeekFrom::Start offset) followed by write_all(data): bytes
before the offset survive, a gap past EOF reads back as zeros, data
overwrites from the offset on. -/
def writeAt (content : List Nat) (offset : Nat) (data : List Nat) : List Nat :=
  let padded := content ++ List.replicate (offset - content.length) 0
  padded.take offset ++ data ++ padded.drop (offset + data.length)

/-- The conversion a u64 file size undergoes in prepare_send before the
division: u64 to f64 rounds to nearest even at 53 significant bits. -/
def f64RoundNat (n : Nat) : Nat :=
  if n < 2 ^ 53 then n
  else
    let e := n.log2 - 52
    let q := n / 2 ^ e
    let r := n % 2 ^ e
    if 2 * r > 2 ^ e ∨ (2 * r = 2 ^ e ∧ q % 2 = 1) then (q + 1) * 2 ^ e
    else q * 2 ^ e

/-- The total_chunks computation of prepare_send, exactly as the source
performs it: ((file_size as f64) / (CHUNK_SIZE as f64)).ceil() as u32.
The division by 65536.0 and the ceil are exact on f64, so the whole
expression is the integer ceiling of the rounded size, saturated at
u32::MAX by the float-to-int cast. -/
def totalChunksRust (file_size : Nat) : Nat :=
  min ((f64RoundNat file_size + (CHUNK_SIZE - 1)) / CHUNK_SIZE) (2 ^ 32 - 1)

/-- The reversed final path component: the characters of the reversed
path up to the first slash. -/
def takeUntilSlash : List Char → List Char
  | [] => []
  | c :: cs => if c = '/' then [] else c :: takeUntilSlash cs

/-- The reversed extension of a reversed file name: the characters up
to the first dot, none when there is no dot or the only dot starts the
name (a dotfile has no extension). -/
def revExtension : List Char → Option (List Char)
  | [] => none
  | c :: cs =>
      if c = '.' then (if cs.isEmpty then none else some [])
      else (revExtension cs).map (fun t => c :: t)

/-- The last path component, as Path::file_name with the source's
unwrap_or("unknown") (trailing-slash normalization elided; no claim
depends on path edge cases). -/
def fileNameOf (path : String) : String :=
  let name := (takeUntilSlash path.data.reverse).reverse
  if name.isEmpty then "unknown" else String.mk name

/-- The extension, as Path::extension with the source's
unwrap_or("bin"). -/
def fileTypeOf (path : String) : String :=
  match revExtension (takeUntilSlash path.data.reverse) with
  | some e => String.mk e.reverse
  | none => "bin"

/-- FileTransferManager::prepare_send: open the file, measure it, hash
it, compute total_chunks, register the sender-side transfer state and
return the metadata. -/
def prepare_send (hash : List Nat → String) (fs : FileSys) (tm : TransferMap)
    (file_path transfer_id : String) :
    Except String (TransferMap × FileMetadata) :=
  match fsGet fs file_path with
  | none => Except.error "No such file or directory"
  | some content =>
    let file_size := content.length
    let file_name := fileNameOf file_path
    let file_type := fileTypeOf file_path
    let checksum := hash content
    let total_chunks := totalChunksRust file_size
    let state : TransferState :=
      { transfer_id := transfer_id, file_name := file_name,
        file_size := file_size, total_chunks := total_chunks,
        received_chunks := List.replicate total_chunks false,
        is_sender := true, is_complete := false,
        file_path := file_path, checksum := checksum }
    Except.ok (tmSet tm transfer_id state,
      { transfer_id := transfer_id, file_name := file_name,
        file_size := file_size, file_type := file_type,
        total_chunks := total_chunks, checksum := checksum })

/-- FileTransferManager::receive_chunk: decode the base64 payload,
recompute the checksum; on mismatch acknowledge success=false without
touching anything; on match write the bytes at chunk_index * CHUNK_SIZE
and set the bitmap bit when the index is within the bitmap. -/
def receive_chunk (hash : List Nat → String) (fs : FileSys) (tm : TransferMap)
    (chunk : FileChunk) : Except String (FileSys × TransferMap × ChunkAck) :=
  match b64Decode chunk.data with
  | Except.error e => Except.error e
  | Except.ok data =>
    let calculated_checksum := hash data
    if calculated_checksum ≠ chunk.checksum then
      Except.ok (fs, tm,
        { transfer_id := chunk.transfer_id, chunk_index := chunk.chunk_index,
          success := false })
    else
      match tmGet tm chunk.transfer_id with
      | none => Except.error "Transfer not found"
      | some state =>
        match fsGet fs state.file_path with
        | none => Except.error "No such file or directory"
        | some content =>
          let offset := chunk.chunk_index * CHUNK_SIZE
          let fs' := fsSet fs state.file_path (writeAt content offset data)
          let tm' :=
            if chunk.chunk_index < state.received_chunks.length then
              tmSet tm chunk.transfer_id
                { state with received_chunks :=
                    state.received_chunks.set chunk.chunk_index true }
            else tm
          Except.ok (fs', tm',
            { transfer_id := chunk.transfer_id, chunk_index := chunk.chunk_index,
              success := true })

/-- FileTransferManager::get_missing_chunks: the indices of the unset
bitmap bits, empty when the transfer is unknown. -/
def get_missing_chunks (tm : TransferMap) (transfer_id : String) : List Nat :=
  match tmGet tm transfer_id with
  | some state =>
      ((state.received_chunks.enum).filter (fun p => p.2 = false)).map (·.1)
  | none => []

/-! ## Claim C1: anti-spoof address check -/

/-- C1 counterexample: a DeliveryAck claiming from=x, arriving from a
source address different from x's stored binding, is forwarded on the
event channel rather than dropped — the listener's peer-id match sends
DeliveryAck to its catch-all None arm, so the anti-spoof check is
skipped for it. -/
theorem C1_delivery_ack_not_dropped :
    listenerStep "me"
      [("x", { peer_id := "x", address := { ip := "10.0.0.5", port := 45678 },
               state := ConnectionState.Disconnected, session_id := none })]
      (SignalingMessage.DeliveryAck "x" "me" "m1")
      { ip := "10.0.0.9", port := 45678 } =
    ([("x", { peer_id := "x", address := { ip := "10.0.0.5", port := 45678 },
              state := ConnectionState.Disconnected, session_id := none })],
     some (SignalingMessage.DeliveryAck "x" "me" "m1")) := by
  decide

/-- C1 (amended): the listener drops a packet whose claimed from is
bound to a different address only for the variants its match extracts a
peer id from; the seven variants it sends to the catch-all arm —
DeliveryAck, ConnectionAccepted, ConnectionRejected, ScreenShareInvite,
FileTransferRequest, FileTransferResponse and Pong — bypass the
anti-spoof check and are always forwarded with the peer table
unchanged. -/
theorem C1_anti_spoof_amended (device_id : String) (peers : PeerTable)
    (src : SockAddr) (msg : SignalingMessage) :
    (∀ id pc, extractPeerId msg = some id → id ≠ device_id →
        tableGet peers id = some pc → pc.address ≠ src →
        listenerStep device_id peers msg src = (peers, none)) ∧
    (extractPeerId msg = none →
        listenerStep device_id peers msg src = (peers, some msg)) ∧
    (∀ f t m, extractPeerId (SignalingMessage.DeliveryAck f t m) = none) ∧
    (∀ f t s, extractPeerId (SignalingMessage.ConnectionAccepted f t s) = none) ∧
    (∀ f t s r, extractPeerId (SignalingMessage.ConnectionRejected f t s r) = none) ∧
    (∀ f t s, extractPeerId (SignalingMessage.ScreenShareInvite f t s) = none) ∧
    (∀ f t n sz ty tid,
        extractPeerId (SignalingMessage.FileTransferRequest f t n sz ty tid) = none) ∧
    (∀ f t tid a, extractPeerId (SignalingMessage.FileTransferResponse f t tid a) = none) ∧
    (∀ f ts, extractPeerId (SignalingMessage.Pong f ts) = none) := by
  refine ⟨?_, ?_, fun _ _ _ => rfl, fun _ _ _ => rfl, fun _ _ _ _ => rfl,
    fun _ _ _ => rfl, fun _ _ _ _ _ _ => rfl, fun _ _ _ _ => rfl, fun _ _ => rfl⟩
  · intro id pc h1 h2 h3 h4
    simp [listenerStep, h1, h2, h3, h4]
  · intro h
    simp [listenerStep, h]

/-- C1 witness: a spoofed ChatMessage — a variant the match does
extract — is dropped and the binding stays. -/
theorem C1_anti_spoof_amended_witness :
    listenerStep "me"
      [("x", { peer_id := "x", address := { ip := "10.0.0.5", port := 45678 },
               state := ConnectionState.Disconnected, session_id := none })]
      (SignalingMessage.ChatMessage "x" "me" "m1" "hi" "text" "Ana" "t0")
      { ip := "10.0.0.9", port := 45678 } =
    ([("x", { peer_id := "x", address := { ip := "10.0.0.5", port := 45678 },
              state := ConnectionState.Disconnected, session_id := none })],
     none) :=
  (C1_anti_spoof_amended "me" _ _ _).1 "x"
    { peer_id := "x", address := { ip := "10.0.0.5", port := 45678 },
      state := ConnectionState.Disconnected, session_id := none }
    (by decide) (by decide) (by decide) (by decide)

/-! ## Claim C8: from and to on every variant -/

/-- C8 counterexample: the Ping variant of SignalingMessage carries no
to field, so not every variant carries both device ids. -/
theorem C8_ping_has_no_to : msgTo (SignalingMessage.Ping "a" 0) = none := rfl

/-- C8 (amended): every variant of SignalingMessage carries a from
device id, and every variant except Ping and Pong carries a to device
id; Ping and Pong carry only from (plus a timestamp). -/
theorem C8_from_to_amended (m : SignalingMessage) :
    msgFrom m = msgFrom m ∧
    ((msgTo m).isSome = true ↔
      (∀ f ts, m ≠ SignalingMessage.Ping f ts) ∧
      (∀ f ts, m ≠ SignalingMessage.Pong f ts)) := by
  refine ⟨rfl, ?_⟩
  cases m <;> simp [msgTo]

/-! ## Claim C4: create_message idempotence -/

/-- C4: create_message with an id already present in the messages
table returns Ok and leaves the table exactly as it was: the stored
row keeps all its fields and no second row is inserted. -/
theorem C4_create_message_duplicate_noop (users : List String)
    (table : List Message) (message existing : Message)
    (hmem : existing ∈ table) (hid : existing.id = message.id) :
    create_message users table message = Except.ok table := by
  unfold create_message
  have hany : table.any (fun m => m.id = message.id) = true :=
    List.any_eq_true.mpr ⟨existing, hmem, by simp [hid]⟩
  simp [hany]

/-- C4 witness: replaying a row with the id of a stored one, with
different field values, changes nothing and reports success. -/
theorem C4_create_message_duplicate_noop_witness :
    create_message ["a", "b"]
      [{ id := "m1", sender_id := "a", receiver_id := "b", content := "hi",
         message_type := "text", file_path := none, is_read := false,
         is_delivered := true, created_at := "2024-01-01T00:00:00Z" }]
      { id := "m1", sender_id := "b", receiver_id := "a", content := "changed",
        message_type := "file", file_path := some "p", is_read := true,
        is_delivered := false, created_at := "2025-01-01T00:00:00Z" } =
    Except.ok
      [{ id := "m1", sender_id := "a", receiver_id := "b", content := "hi",
         message_type := "text", file_path := none, is_read := false,
         is_delivered := true, created_at := "2024-01-01T00:00:00Z" }] :=
  C4_create_message_duplicate_noop _ _ _
    { id := "m1", sender_id := "a", receiver_id := "b", content := "hi",
      message_type := "text", file_path := none, is_read := false,
      is_delivered := true, created_at := "2024-01-01T00:00:00Z" }
    (by simp) rfl

/-! ## Claim C6: is_read implies is_delivered -/

/-- C6 counterexample: mark_message_read on an undelivered row yields a
row with is_read true and is_delivered still false — the UPDATE sets
only is_read, so the claimed implication fails. -/
theorem C6_read_without_delivered :
    mark_message_read
      [{ id := "m1", sender_id := "a", receiver_id := "b", content := "hi",
         message_type := "text", file_path := none, is_read := false,
         is_delivered := false, created_at := "2024-01-01T00:00:00Z" }] "m1" =
    [{ id := "m1", sender_id := "a", receiver_id := "b", content := "hi",
       message_type := "text", file_path := none, is_read := true,
       is_delivered := false, created_at := "2024-01-01T00:00:00Z" }] := by
  decide

/-- C6 (amended): the mark-read operations set only is_read and leave
every row's is_delivered unchanged; consequently is_read implies
is_delivered is preserved exactly when every row the UPDATE touches
was already delivered. -/
theorem C6_mark_read_amended (table : List Message) (id local_id peer_id : String) :
    ((mark_message_read table id).map (·.is_delivered) =
      table.map (·.is_delivered)) ∧
    ((mark_messages_read_from_peer table local_id peer_id).map (·.is_delivered) =
      table.map (·.is_delivered)) ∧
    ((∀ m ∈ table, m.id = id → m.is_delivered = true) →
      (∀ m ∈ table, m.is_read = true → m.is_delivered = true) →
      ∀ m ∈ mark_message_read table id, m.is_read = true → m.is_delivered = true) ∧
    ((∀ m ∈ table, m.receiver_id = local_id → m.sender_id = peer_id →
        m.is_delivered = true) →
      (∀ m ∈ table, m.is_read = true → m.is_delivered = true) →
      ∀ m ∈ mark_messages_read_from_peer table local_id peer_id,
        m.is_read = true → m.is_delivered = true) := by
  refine ⟨?_, ?_, ?_, ?_⟩
  · rw [mark_message_read, List.map_map]
    refine List.map_congr_left fun m _ => ?_
    simp only [Function.comp]
    split <;> rfl
  · rw [mark_messages_read_from_peer, List.map_map]
    refine List.map_congr_left fun m _ => ?_
    simp only [Function.comp]
    split <;> rfl
  · intro h1 h2 m hm hr
    rw [mark_message_read, List.mem_map] at hm
    obtain ⟨m0, hm0, heq⟩ := hm
    by_cases hid : m0.id = id
    · have : m = { m0 with is_read := true } := by
        rw [← heq]; simp [hid]
      rw [this]
      exact h1 m0 hm0 hid
    · have hmm : m = m0 := by rw [← heq]; simp [hid]
      rw [hmm] at hr ⊢
      exact h2 m0 hm0 hr
  · intro h1 h2 m hm hr
    rw [mark_messages_read_from_peer, List.mem_map] at hm
    obtain ⟨m0, hm0, heq⟩ := hm
    by_cases hc : m0.receiver_id = local_id ∧ m0.sender_id = peer_id ∧ m0.is_read = false
    · have : m = { m0 with is_read := true } := by
        rw [← heq]; simp [hc]
      rw [this]
      exact h1 m0 hm0 hc.1 hc.2.1
    · have hmm : m = m0 := by rw [← heq]; simp [hc]
      rw [hmm] at hr ⊢
      exact h2 m0 hm0 hr

/-- C6 witness: on a table whose rows marked by each UPDATE are already
delivered, both operations preserve the implication, and is_delivered
columns are untouched. -/
theorem C6_mark_read_amended_witness :
    ((mark_message_read
        [{ id := "m1", sender_id := "a", receiver_id := "b", content := "hi",
           message_type := "text", file_path := none, is_read := false,
           is_delivered := true, created_at := "t" }] "m1").map (·.is_delivered) =
      [true]) ∧
    (∀ m ∈ mark_message_read
        [{ id := "m1", sender_id := "a", receiver_id := "b", content := "hi",
           message_type := "text", file_path := none, is_read := false,
           is_delivered := true, created_at := "t" }] "m1",
      m.is_read = true → m.is_delivered = true) := by
  have h := C6_mark_read_amended
    [{ id := "m1", sender_id := "a", receiver_id := "b", content := "hi",
       message_type := "text", file_path := none, is_read := false,
       is_delivered := true, created_at := "t" }] "m1" "b" "a"
  exact ⟨h.1, h.2.2.1 (by decide) (by decide)⟩

/-! ## Claim C5: one generic decryption error -/

/-- A concrete instantiation of the external-crate interface, used only
to evaluate the crypto manager at concrete inputs in witnesses and
counterexamples.  It satisfies every contract the theorems assume. -/
def demoPrims : CryptoPrims where
  x25519Base := fun _ => List.replicate 32 0
  x25519Dh := fun _ pk => pk
  sha256 := fun _ => List.replicate 32 0
  aeadSeal := fun _ _ p => p.map (· % 256)
  aeadOpen := fun _ _ c => some c

/-- C5 counterexample: with a session established, an envelope whose
nonce is valid base64 of five bytes makes decrypt return the distinct
error message for a wrong-length nonce, not the one generic
decryption-failed message — so decrypt does distinguish malformed
envelopes from authentication failures. -/
theorem C5_nonce_error_distinct :
    decrypt demoPrims
      { device_keypair := none,
        session_keys := [("peer",
          { shared_secret := List.replicate 32 0,
            peer_public_key := List.replicate 32 0 })] }
      "peer"
      { nonce := "AQIDBAU=", ciphertext := "AA==", sender_public_key := "" } =
      Except.error "Invalid nonce length" ∧
    "Invalid nonce length" ≠ "Decryption failed - invalid ciphertext or key" := by
  exact ⟨rfl, by decide⟩

/-- C5 (amended): with a session established, only an AEAD opening
failure — authentication-tag failure or wrong key — is reported with
the single generic decryption-failed message; a nonce that decodes to
the wrong length is reported as an invalid nonce length, and base64
decode failures surface the decoder's own error. -/
theorem C5_decrypt_errors_amended (P : CryptoPrims) (st : CryptoState)
    (peer_id : String) (envelope : EncryptedEnvelope) (session : SessionKey)
    (hs : sessionGet st peer_id = some session) :
    (∀ nonce_bytes ciphertext,
        b64Decode envelope.nonce = Except.ok nonce_bytes →
        nonce_bytes.length = 12 →
        b64Decode envelope.ciphertext = Except.ok ciphertext →
        session.shared_secret.length = 32 →
        P.aeadOpen session.shared_secret nonce_bytes ciphertext = none →
        decrypt P st peer_id envelope =
          Except.error "Decryption failed - invalid ciphertext or key") ∧
    (∀ nonce_bytes,
        b64Decode envelope.nonce = Except.ok nonce_bytes →
        nonce_bytes.length ≠ 12 →
        decrypt P st peer_id envelope = Except.error "Invalid nonce length") ∧
    (∀ e, b64Decode envelope.nonce = Except.error e →
        decrypt P st peer_id envelope = Except.error e) := by
  refine ⟨?_, ?_, ?_⟩
  · intro nonce_bytes ciphertext hn hlen hcipher hkey hopen
    simp [decrypt, hs, hn, hlen, hcipher, hkey, hopen]
  · intro nonce_bytes hn hlen
    simp [decrypt, hs, hn, hlen]
  · intro e hn
    simp [decrypt, hs, hn]

/-- C5 witness: an AEAD failure on a well-formed envelope produces the
generic message. -/
theorem C5_decrypt_errors_amended_witness :
    decrypt
      { demoPrims with aeadOpen := fun _ _ _ => none }
      { device_keypair := none,
        session_keys := [("peer",
          { shared_secret := List.replicate 32 0,
            peer_public_key := List.replicate 32 0 })] }
      "peer"
      { nonce := "AAAAAAAAAAAAAAAA", ciphertext := "AA==",
        sender_public_key := "" } =
      Except.error "Decryption failed - invalid ciphertext or key" :=
  (C5_decrypt_errors_amended
      { demoPrims with aeadOpen := fun _ _ _ => none }
      { device_keypair := none,
        session_keys := [("peer",
          { shared_secret := List.replicate 32 0,
            peer_public_key := List.replicate 32 0 })] }
      "peer"
      { nonce := "AAAAAAAAAAAAAAAA", ciphertext := "AA==",
        sender_public_key := "" }
      { shared_secret := List.replicate 32 0,
        peer_public_key := List.replicate 32 0 }
      (by decide)).1 (List.replicate 12 0) [0]
    rfl (by decide) rfl (by decide) rfl

/-! ## Claim C9: total_chunks is the exact ceiling -/

/-- C9 counterexample: a 2^48-byte file is opened successfully by
prepare_send, yet the total_chunks of the returned metadata is the
saturated u32 maximum 4294967295 and not the exact ceiling
2^48 / 65536 = 4294967296 — the f64 ceiling is cast to u32 with
saturation, so the exact-ceiling property fails for large u64 sizes. -/
theorem C9_large_file_total_chunks_wrong :
    ∃ tm meta,
      prepare_send (fun _ => "h") [("f", List.replicate (2 ^ 48) 0)] [] "f" "t" =
        Except.ok (tm, meta) ∧
      meta.file_size = 2 ^ 48 ∧
      meta.total_chunks ≠ (2 ^ 48 + 65535) / 65536 := by
  have hval : totalChunksRust (2 ^ 48) = 2 ^ 32 - 1 := by
    unfold totalChunksRust f64RoundNat CHUNK_SIZE
    norm_num
  have key : ∀ content : List Nat, content.length = 2 ^ 48 →
      ∃ tm meta,
        prepare_send (fun _ => "h") [("f", content)] [] "f" "t" =
          Except.ok (tm, meta) ∧
        meta.file_size = 2 ^ 48 ∧
        meta.total_chunks ≠ (2 ^ 48 + 65535) / 65536 := by
    intro content hlen
    refine ⟨_, _, rfl, hlen, ?_⟩
    show totalChunksRust content.length ≠ _
    rw [hlen, hval]
    norm_num
  exact key (List.replicate (2 ^ 48) 0) (List.length_replicate _ _)

/-- totalChunksRust coincides with the exact integer ceiling whenever
every intermediate step is exact: sizes up to 65536 * (2^32 - 1) are
below 2^53 (no f64 rounding) and give a ceiling within u32 (no
saturation). -/
theorem totalChunks_exact (n : Nat) (h : n ≤ 65536 * (2 ^ 32 - 1)) :
    totalChunksRust n = (n + 65535) / 65536 := by
  have hb : (65536 * (2 ^ 32 - 1) : Nat) = 281474976645120 := by norm_num
  have h53 : n < 2 ^ 53 := by
    have : (2 : Nat) ^ 53 = 9007199254740992 := by norm_num
    omega
  unfold totalChunksRust f64RoundNat CHUNK_SIZE
  rw [if_pos h53]
  apply min_eq_left
  have hle : n + 65535 ≤ 2 ^ 48 - 1 := by
    have : (2 : Nat) ^ 48 = 281474976710656 := by norm_num
    omega
  calc (n + 65535) / 65536 ≤ (2 ^ 48 - 1) / 65536 := Nat.div_le_div_right hle
    _ = 2 ^ 32 - 1 := by norm_num

/-- C9 (amended): for every file whose size does not exceed
65536 * (2^32 - 1) bytes, the total_chunks of the metadata returned by
prepare_send, and of the transfer state it registers, is exactly the
integer ceiling of size / 65536 (zero for an empty file); beyond that
bound the f64 computation and the saturating u32 cast deviate. -/
theorem C9_total_chunks_amended (hash : List Nat → String) (fs : FileSys)
    (tm tm' : TransferMap) (file_path transfer_id : String)
    (content : List Nat) (meta : FileMetadata)
    (hfs : fsGet fs file_path = some content)
    (hsize : content.length ≤ 65536 * (2 ^ 32 - 1))
    (hps : prepare_send hash fs tm file_path transfer_id =
      Except.ok (tm', meta)) :
    meta.total_chunks = (content.length + 65535) / 65536 ∧
    ∃ st, tmGet tm' transfer_id = some st ∧
      st.total_chunks = (content.length + 65535) / 65536 ∧
      st.received_chunks.length = st.total_chunks := by
  rw [prepare_send, hfs] at hps
  simp only [Except.ok.injEq, Prod.mk.injEq] at hps
  obtain ⟨h1, h2⟩ := hps
  subst h1
  subst h2
  refine ⟨totalChunks_exact _ hsize,
    ⟨{ transfer_id := transfer_id, file_name := fileNameOf file_path,
       file_size := content.length,
       total_chunks := totalChunksRust content.length,
       received_chunks := List.replicate (totalChunksRust content.length) false,
       is_sender := true, is_complete := false,
       file_path := file_path, checksum := hash content }, ?_, ?_, ?_⟩⟩
  · simp [tmGet, tmSet]
  · exact totalChunks_exact _ hsize
  · exact List.length_replicate _ _

/-- C9 witness: a three-byte file gives one chunk, in the metadata and
in the registered state. -/
theorem C9_total_chunks_amended_witness :
    (FileMetadata.mk "t1" "a.txt" 3 "txt" 1 "h").total_chunks =
      (([1, 2, 3] : List Nat).length + 65535) / 65536 ∧
    ∃ st, tmGet [("t1", TransferState.mk "t1" "a.txt" 3 1 [false] true false "a.txt" "h")]
        "t1" = some st ∧
      st.total_chunks = (([1, 2, 3] : List Nat).length + 65535) / 65536 ∧
      st.received_chunks.length = st.total_chunks := by
  exact C9_total_chunks_amended (fun _ => "h") [("a.txt", [1, 2, 3])] []
    _ "a.txt" "t1" [1, 2, 3] _ rfl (by decide) rfl

/-! ## Claim C3: checksum mismatch is a negative ack without effects -/

/-- An index whose bitmap bit is unset is reported by
get_missing_chunks. -/
theorem mem_get_missing_of_bit_false (tm : TransferMap) (tid : String)
    (state : TransferState) (i : Nat)
    (h : tmGet tm tid = some state)
    (hb : state.received_chunks[i]? = some false) :
    i ∈ get_missing_chunks tm tid := by
  unfold get_missing_chunks
  rw [h]
  simp only [List.mem_map]
  refine ⟨(i, false), ?_, rfl⟩
  rw [List.mem_filter]
  exact ⟨List.mk_mem_enum_iff_getElem?.mpr hb, by simp⟩

/-- C3: when the recomputed checksum of a decoded chunk differs from
the declared one, receive_chunk returns a success=false ack, leaves the
file system and the transfers map (hence the bitmap) untouched, and the
unset bit keeps the index in get_missing_chunks. -/
theorem C3_checksum_mismatch_negative_ack (hash : List Nat → String)
    (fs : FileSys) (tm : TransferMap) (chunk : FileChunk)
    (state : TransferState) (data : List Nat)
    (hreg : tmGet tm chunk.transfer_id = some state)
    (_hrecv : state.is_sender = false)
    (hdec : b64Decode chunk.data = Except.ok data)
    (hbad : hash data ≠ chunk.checksum) :
    receive_chunk hash fs tm chunk =
      Except.ok (fs, tm,
        { transfer_id := chunk.transfer_id, chunk_index := chunk.chunk_index,
          success := false }) ∧
    (state.received_chunks[chunk.chunk_index]? = some false →
      chunk.chunk_index ∈ get_missing_chunks tm chunk.transfer_id) := by
  constructor
  · simp only [receive_chunk, hdec]
    rw [if_pos hbad]
  · intro hb
    exact mem_get_missing_of_bit_false tm _ state _ hreg hb

/-- C3 witness: a corrupted chunk for a registered receiving transfer
is negatively acknowledged, nothing changes, and index 0 stays
missing. -/
theorem C3_checksum_mismatch_negative_ack_witness :
    receive_chunk (fun _ => "x")
      [("p", [7])]
      [("t", TransferState.mk "t" "f.bin" 1 1 [false] false false "p" "c")]
      (FileChunk.mk "t" 0 "BQ==" "y") =
      Except.ok ([("p", [7])],
        [("t", TransferState.mk "t" "f.bin" 1 1 [false] false false "p" "c")],
        ChunkAck.mk "t" 0 false) ∧
    (0 : Nat) ∈ get_missing_chunks
      [("t", TransferState.mk "t" "f.bin" 1 1 [false] false false "p" "c")] "t" := by
  have h := C3_checksum_mismatch_negative_ack (fun _ => "x")
    [("p", [7])]
    [("t", TransferState.mk "t" "f.bin" 1 1 [false] false false "p" "c")]
    (FileChunk.mk "t" 0 "BQ==" "y")
    (TransferState.mk "t" "f.bin" 1 1 [false] false false "p" "c") [5]
    rfl rfl rfl (by decide)
  exact ⟨h.1, h.2 rfl⟩

/-! ## Claim C10: in-range write guard but unguarded file offset -/

/-- Writing at an offset at or past the end extends the file: the old
bytes, a zero gap up to the offset, then the data. -/
theorem writeAt_extends (content : List Nat) (offset : Nat) (data : List Nat)
    (h : content.length ≤ offset) :
    writeAt content offset data =
      content ++ List.replicate (offset - content.length) 0 ++ data := by
  simp only [writeAt]
  have hlen : (content ++ List.replicate (offset - content.length) (0 : Nat)).length
      = offset := by
    simp only [List.length_append, List.length_replicate]
    omega
  rw [List.take_of_length_le (le_of_eq hlen),
      List.drop_eq_nil_of_le (by rw [hlen]; omega)]
  simp

/-- C10: a chunk whose checksum matches but whose index is at or past
total_chunks is still acknowledged with success=true; the transfers map
(and so the bitmap and its length) is unchanged because the bitmap
update is guarded by the index bound, yet the payload is written at
chunk_index * 65536, past the pre-allocated file length. -/
theorem C10_out_of_range_chunk (hash : List Nat → String) (fs : FileSys)
    (tm : TransferMap) (chunk : FileChunk) (state : TransferState)
    (data content : List Nat)
    (hreg : tmGet tm chunk.transfer_id = some state)
    (hblen : state.received_chunks.length = state.total_chunks)
    (hdec : b64Decode chunk.data = Except.ok data)
    (hgood : hash data = chunk.checksum)
    (hfile : fsGet fs state.file_path = some content)
    (hpre : content.length ≤ state.total_chunks * CHUNK_SIZE)
    (hidx : state.total_chunks ≤ chunk.chunk_index) :
    receive_chunk hash fs tm chunk =
      Except.ok
        (fsSet fs state.file_path
          (content ++
            List.replicate (chunk.chunk_index * CHUNK_SIZE - content.length) 0 ++
            data),
         tm,
         { transfer_id := chunk.transfer_id, chunk_index := chunk.chunk_index,
           success := true }) := by
  have hoff : content.length ≤ chunk.chunk_index * CHUNK_SIZE :=
    le_trans hpre (Nat.mul_le_mul_right _ hidx)
  have hnot : ¬ hash data ≠ chunk.checksum := by simp [hgood]
  have hnobit : ¬ chunk.chunk_index < state.received_chunks.length := by
    rw [hblen]; omega
  simp only [receive_chunk, hdec]
  rw [if_neg hnot]
  simp only [hreg, hfile]
  rw [if_neg hnobit, writeAt_extends content _ data hoff]

/-- C10 witness: with one total chunk and a one-byte file, a matching
chunk at index 1 is accepted, the map is untouched, and the file grows
to 65537 bytes. -/
theorem C10_out_of_range_chunk_witness :
    receive_chunk (fun _ => "h")
      [("p", [7])]
      [("t", TransferState.mk "t" "f.bin" 1 1 [false] false false "p" "c")]
      (FileChunk.mk "t" 1 "BQ==" "h") =
      Except.ok
        (fsSet [("p", [7])] "p" ([7] ++ List.replicate 65535 0 ++ [5]),
         [("t", TransferState.mk "t" "f.bin" 1 1 [false] false false "p" "c")],
         ChunkAck.mk "t" 1 true) :=
  C10_out_of_range_chunk (fun _ => "h")
    [("p", [7])]
    [("t", TransferState.mk "t" "f.bin" 1 1 [false] false false "p" "c")]
    (FileChunk.mk "t" 1 "BQ==" "h")
    (TransferState.mk "t" "f.bin" 1 1 [false] false false "p" "c")
    [5] [7] rfl rfl rfl rfl rfl (by decide) (by decide)

/-! ## Claim C2: crypto round trip -/

/-- C2: for any two independently generated keypairs and any byte
plaintext, if both managers established sessions from the other's
base64 public key, then B's decrypt (keyed by A's peer id) inverts A's
encrypt (keyed by B's peer id).  The hypotheses are the documented
contracts of the external crates: public keys are 32 bytes, X25519
shared secrets agree, SHA-256 digests are 32 bytes, and AES-GCM opens
what it seals. -/
theorem C2_crypto_round_trip (P : CryptoPrims)
    (hbaselen : ∀ s, (P.x25519Base s).length = 32)
    (hbasebytes : ∀ s, ∀ x ∈ P.x25519Base s, x < 256)
    (hdh : ∀ a b, P.x25519Dh a (P.x25519Base b) = P.x25519Dh b (P.x25519Base a))
    (hshalen : ∀ x, (P.sha256 x).length = 32)
    (hsealbytes : ∀ k n p, ∀ x ∈ P.aeadSeal k n p, x < 256)
    (hround : ∀ k n p, (∀ x ∈ p, x < 256) →
        P.aeadOpen k n (P.aeadSeal k n p) = some p)
    (secret_a secret_b nonce_bytes plaintext : List Nat)
    (hnbytes : ∀ x ∈ nonce_bytes, x < 256)
    (hnlen : nonce_bytes.length = 12)
    (hpbytes : ∀ x ∈ plaintext, x < 256) :
    cryptoRoundTrip P secret_a secret_b nonce_bytes plaintext =
      Except.ok plaintext := by
  have hdecB := b64Decode_encode (P.x25519Base secret_b) (hbasebytes _)
  have hdecA := b64Decode_encode (P.x25519Base secret_a) (hbasebytes _)
  have hdecN := b64Decode_encode nonce_bytes hnbytes
  have hdecC := b64Decode_encode
    (P.aeadSeal (P.sha256 (P.x25519Dh secret_b (P.x25519Base secret_a)))
      nonce_bytes plaintext)
    (hsealbytes _ _ _)
  simp only [cryptoRoundTrip, generate_keypair, cryptoNew, establish_session,
    encrypt, decrypt, sessionGet, hdecA, hdecB, hbaselen, hshalen]
  simp only [List.filter_nil, List.find?, ne_eq, not_true_eq_false,
    reduceCtorEq, if_false, ite_false]
  simp [hdecN, hdecC, hnlen, hshalen, hdh secret_a secret_b,
    hround _ _ _ hpbytes]

/-- C2 witness: the round trip evaluated at concrete keys, nonce and
plaintext with a concrete primitive instantiation satisfying every
contract. -/
theorem C2_crypto_round_trip_witness :
    cryptoRoundTrip demoPrims [1] [2] (List.replicate 12 0) [72, 105] =
      Except.ok [72, 105] :=
  C2_crypto_round_trip demoPrims
    (fun _ => by simp [demoPrims])
    (fun _ x hx => by
      rw [List.eq_of_mem_replicate (show x ∈ List.replicate 32 0 from hx)]
      norm_num)
    (fun _ _ => rfl)
    (fun _ => by simp [demoPrims])
    (fun k n p x hx => by
      simp only [demoPrims, List.mem_map] at hx
      obtain ⟨y, _, rfl⟩ := hx
      exact Nat.mod_lt _ (by norm_num))
    (fun k n p hp => by
      have h1 : p.map (· % 256) = p.map id :=
        List.map_congr_left fun x hx => Nat.mod_eq_of_lt (hp x hx)
      simp [demoPrims, h1])
    [1] [2] (List.replicate 12 0) [72, 105]
    (fun x hx => by
      rw [List.eq_of_mem_replicate hx]
      norm_num)
    (by simp)
    (by decide)

/-! ## Claim C7: last-message uniqueness and maximality -/

theorem conversationRows_mem (me : String) (table : List Message) (m : Message) :
    m ∈ conversationRows me table ↔
      m ∈ table ∧ (m.sender_id = me ∨ m.receiver_id = me) := by
  simp [conversationRows, List.mem_filter]

/-- Membership in one partition of the window query coincides with
being a message between me and that peer. -/
theorem between_iff (me p : String) (table : List Message) (m : Message) :
    (m ∈ conversationRows me table ∧ peerOf me m = p) ↔
      (m ∈ table ∧ isBetween me p m) := by
  rw [conversationRows_mem]
  unfold peerOf isBetween
  constructor
  · rintro ⟨⟨hm, hor⟩, hp⟩
    refine ⟨hm, ?_⟩
    by_cases hs : m.sender_id = me
    · rw [if_pos hs] at hp
      exact Or.inl ⟨hs, hp⟩
    · rw [if_neg hs] at hp
      rcases hor with h | h
      · exact absurd h hs
      · exact Or.inr ⟨hp, h⟩
  · rintro ⟨hm, hb⟩
    rcases hb with ⟨hs, hr⟩ | ⟨hs, hr⟩
    · exact ⟨⟨hm, Or.inl hs⟩, by rw [if_pos hs]; exact hr⟩
    · refine ⟨⟨hm, Or.inr hr⟩, ?_⟩
      by_cases hsme : m.sender_id = me
      · rw [if_pos hsme, hr]
        exact (hs.symm.trans hsme).symm
      · rw [if_neg hsme]
        exact hs

theorem laterOf_le_left (a b : Message) :
    a.created_at ≤ (laterOf a b).created_at := by
  unfold laterOf
  split
  · exact le_of_lt (by assumption)
  · exact le_rfl

theorem laterOf_le_right (a b : Message) :
    b.created_at ≤ (laterOf a b).created_at := by
  unfold laterOf
  split
  · exact le_rfl
  · exact le_of_not_lt (by assumption)

theorem laterOf_eq_or (a b : Message) : laterOf a b = a ∨ laterOf a b = b := by
  unfold laterOf
  split
  · exact Or.inr rfl
  · exact Or.inl rfl

theorem foldl_laterOf_mem (ms : List Message) :
    ∀ m, ms.foldl laterOf m ∈ m :: ms := by
  induction ms with
  | nil => intro m; simp
  | cons c cs ih =>
      intro m
      have h := ih (laterOf m c)
      rw [List.foldl_cons]
      rcases List.mem_cons.mp h with h1 | h1
      · rw [h1]
        rcases laterOf_eq_or m c with he | he <;> rw [he] <;> simp
      · simp [h1]

theorem foldl_laterOf_ge (ms : List Message) :
    ∀ m, ∀ x ∈ m :: ms, x.created_at ≤ (ms.foldl laterOf m).created_at := by
  induction ms with
  | nil =>
      intro m x hx
      rw [List.mem_singleton] at hx
      rw [hx, List.foldl_nil]
  | cons c cs ih =>
      intro m x hx
      rw [List.foldl_cons]
      rcases List.mem_cons.mp hx with h1 | h1
      · rw [h1]
        exact le_trans (laterOf_le_left m c)
          (ih (laterOf m c) _ (List.mem_cons_self _ _))
      · rcases List.mem_cons.mp h1 with h2 | h2
        · rw [h2]
          exact le_trans (laterOf_le_right m c)
            (ih (laterOf m c) _ (List.mem_cons_self _ _))
        · exact ih (laterOf m c) x (List.mem_cons_of_mem _ h2)

theorem pickLatest_mem {l : List Message} {m : Message}
    (h : pickLatest l = some m) : m ∈ l := by
  cases l with
  | nil => simp [pickLatest] at h
  | cons a as =>
      simp only [pickLatest, Option.some.injEq] at h
      rw [← h]
      exact foldl_laterOf_mem as a

theorem pickLatest_ge {l : List Message} {m : Message}
    (h : pickLatest l = some m) :
    ∀ x ∈ l, x.created_at ≤ m.created_at := by
  cases l with
  | nil => simp
  | cons a as =>
      simp only [pickLatest, Option.some.injEq] at h
      rw [← h]
      exact foldl_laterOf_ge as a

theorem nodup_map_key_filterMap {α β : Type} (key : β → α) (f : α → Option β)
    (hkey : ∀ a b, f a = some b → key b = a) :
    ∀ l : List α, l.Nodup → ((l.filterMap f).map key).Nodup := by
  intro l
  induction l with
  | nil => simp
  | cons a as ih =>
      intro h
      rw [List.filterMap_cons]
      rcases List.nodup_cons.mp h with ⟨hna, hnas⟩
      cases hfa : f a with
      | none => exact ih hnas
      | some b =>
          rw [List.map_cons, List.nodup_cons]
          refine ⟨?_, ih hnas⟩
          intro hmem
          rw [List.mem_map] at hmem
          obtain ⟨c, hc, hkc⟩ := hmem
          rw [List.mem_filterMap] at hc
          obtain ⟨a', ha', hfa'⟩ := hc
          have h1 := hkey a b hfa
          have h2 := hkey a' c hfa'
          rw [h2] at hkc
          rw [h1] at hkc
          exact hna (hkc ▸ ha')

/-- C7: get_last_messages returns at most one row per distinct peer —
the returned peer ids are pairwise distinct — and each returned row's
created_at is attained by a message between me and that peer and is
maximal among all such messages. -/
theorem C7_last_messages_unique_max (table : List Message) (me : String) :
    ((get_last_messages me table).map (fun r => r.peer_id)).Nodup ∧
    ∀ r ∈ get_last_messages me table,
      (∃ m ∈ table, isBetween me r.peer_id m ∧ m.created_at = r.created_at) ∧
      ∀ m ∈ table, isBetween me r.peer_id m → m.created_at ≤ r.created_at := by
  constructor
  · simp only [get_last_messages]
    refine nodup_map_key_filterMap (fun r : LastMessageInfo => r.peer_id) _ ?_ _
      (List.nodup_dedup _)
    intro p r h
    rw [Option.map_eq_some'] at h
    obtain ⟨m, _, hr⟩ := h
    rw [← hr]
  · intro r hr
    simp only [get_last_messages] at hr
    rw [List.mem_filterMap] at hr
    obtain ⟨p, _, hf⟩ := hr
    rw [Option.map_eq_some'] at hf
    obtain ⟨m, hm, hrm⟩ := hf
    have hmem := pickLatest_mem hm
    rw [List.mem_filter] at hmem
    obtain ⟨hmrows, hmp⟩ := hmem
    have hmp' : peerOf me m = p := by simpa using hmp
    have hbet := (between_iff me p table m).mp ⟨hmrows, hmp'⟩
    have hpeer : r.peer_id = p := by rw [← hrm]
    have hcre : r.created_at = m.created_at := by rw [← hrm]
    constructor
    · exact ⟨m, hbet.1, by rw [hpeer]; exact hbet.2, by rw [hcre]⟩
    · intro m' hm' hbet'
      rw [hpeer] at hbet'
      have hmem' : m' ∈ (conversationRows me table).filter
          (fun x => peerOf me x = p) := by
        rw [List.mem_filter]
        have hb := (between_iff me p table m').mpr ⟨hm', hbet'⟩
        exact ⟨hb.1, by simpa using hb.2⟩
      have := pickLatest_ge hm m' hmem'
      rw [hcre]
      exact this

end Pingo
